import Mathlib

/-!
Kolang front end: formal model

A shallow embedding of the Kolang compiler front end (lexer, parser, symbol
table) together with theorems checking the natural-language specification
against it.  Each definition mirrors one Rust item of the repository:

* `LexState`, `nextChar`, `matchIden` … `lexNext` embed `lexer/src/lib.rs`
  (`Lexer::next_char`, `Lexer::match_iden`, …, `Lexer::next`);
* `TokenType` / `Token` embed `lexer/src/token.rs`, with the `Invalid`
  variant carrying a payload as it does at every use site in
  `lexer/src/lib.rs` and `parser/src/lib.rs`;
* the AST types and the parsing functions embed `parser/src/ast.rs` and
  `parser/src/syntax.rs`;
* `SymbolTable` embeds `semantic/src/symbol_table.rs`.

Recursion in the Rust code is realised by `while` loops and mutual
recursion; the embedding makes them structurally recursive on an explicit
fuel argument.  Fuel exhaustion is a distinguished outcome that never
occurs in any theorem below (the fuel supplied always exceeds the input
length).  Byte input is modelled as `List Char` restricted to ASCII, which
matches the code's byte-as-character reading of the source.
-/

set_option maxHeartbeats 1000000
set_option maxRecDepth 8000

/-! ## Character classification helpers (Rust `char` methods) -/

/-- The NUL character, used by `Lexer::next_char` to signal end of stream. -/
def nulChar : Char := Char.ofNat 0

/-- The single-quote character (written via its code point). -/
def squoteChar : Char := Char.ofNat 39

/-- The backslash character. -/
def bslashChar : Char := '\\'

/-- Rust `char::is_whitespace`, restricted to single-byte characters
(the only ones the lexer can produce): `\t \n \v \f \r space NEL NBSP`. -/
def rustIsWhitespace (c : Char) : Bool :=
  c = ' ' || (0x09 ≤ c.toNat && c.toNat ≤ 0x0d) || c.toNat = 0x85 || c.toNat = 0xa0

/-- Rust `char::to_digit`. -/
def rustToDigit (c : Char) (radix : Nat) : Option Nat :=
  let v : Option Nat :=
    if '0' ≤ c ∧ c ≤ '9' then some (c.toNat - '0'.toNat)
    else if 'a' ≤ c ∧ c ≤ 'z' then some (c.toNat - 'a'.toNat + 10)
    else if 'A' ≤ c ∧ c ≤ 'Z' then some (c.toNat - 'A'.toNat + 10)
    else none
  match v with
  | some d => if d < radix then some d else none
  | none => none

/-- Rust `char::is_digit`. -/
def rustIsDigit (c : Char) (radix : Nat) : Bool :=
  (rustToDigit c radix).isSome

/-- Rust `char::is_ascii_alphabetic`. -/
def isAsciiAlphabetic (c : Char) : Bool :=
  ('a' ≤ c && c ≤ 'z') || ('A' ≤ c && c ≤ 'Z')

/-- Rust `char::is_ascii_alphanumeric`. -/
def isAsciiAlphanumeric (c : Char) : Bool :=
  isAsciiAlphabetic c || ('0' ≤ c && c ≤ '9')

/-! ## Token model (`lexer/src/token.rs`)

`TokenType` follows `token.rs`; the `Invalid` variant carries the offending
text, as required by its construction sites `TokenType::Invalid("!".into())`,
`TokenType::Invalid(c)`, `TokenType::Invalid(s)`, `TokenType::Invalid(tmp)`
in `lexer/src/lib.rs` and the pattern `TokenType::Invalid(_)` in
`parser/src/lib.rs`. -/

inductive TokenType where
  | Iden (s : String)
  | LiteralIntDec (s : String)
  | LiteralIntBin (s : String)
  | LiteralIntOct (s : String)
  | LiteralIntHex (s : String)
  | LiteralChar (s : String)
  | LiteralFloat (s : String)
  | LiteralStr (s : String)
  | LPar | RPar | LBracket | RBracket | LBrace | RBrace
  | LT | GT | LEq | GEq | Eq | NEq | Assign
  | Plus | Minus | Asterisk | Slash | Percent | Pipe | Amp | Tilde
  | Semicolon | Colon | Comma | Period
  | LC (s : String)
  | BC (s : String)
  | KwFor | KwTo | KwWhile | KwIf | KwElse | KwTrue | KwFalse
  | KwOr | KwAnd | KwNot | KwLet | KwFn | KwReturn
  | KwInt | KwChar | KwBool | KwFloat | KwStr
  | Invalid (s : String)
  | EOF
deriving BEq, Repr

/-- Rust `Token` (`lexer/src/token.rs`): a token type with its 1-based start
position. -/
structure Token where
  line : Nat
  column : Nat
  token_type : TokenType
deriving BEq, Repr

/-- Rust `Token::new(line, column, token_type)`. -/
def Token.new (line column : Nat) (token_type : TokenType) : Token :=
  ⟨line, column, token_type⟩

/-! ## Lexer state and primitive reads (`lexer/src/lib.rs`) -/

/-- The `Lexer` struct: current position, lookahead character, and the
remaining byte stream. -/
structure LexState where
  line : Nat
  column : Nat
  current : Char
  stream : List Char
deriving Repr

/-- Rust `Lexer::next_char`: pull one byte into `current` (or NUL at end of
stream), updating `line`/`column` from the character being replaced. -/
def nextChar (st : LexState) : LexState :=
  match st.stream with
  | [] => { st with current := nulChar }
  | c :: rest =>
    if st.current = '\n' then
      { line := st.line + 1, column := 1, current := c, stream := rest }
    else
      { line := st.line, column := st.column + 1, current := c, stream := rest }

/-- Rust `Lexer::new(stream)` paired with the implicit initial lookahead `' '`. -/
def initLex (s : String) : LexState :=
  { line := 1, column := 0, current := ' ', stream := s.data }

/-- Rust `Lexer::consume_whitespace`. -/
def consumeWhitespace : Nat → LexState → LexState
  | 0, st => st
  | fuel + 1, st =>
    if rustIsWhitespace st.current then consumeWhitespace fuel (nextChar st)
    else st

/-- Rust `Lexer::match_iden`. -/
def matchIden : Nat → LexState → String × LexState
  | 0, st => ("", st)
  | fuel + 1, st =>
    if isAsciiAlphanumeric st.current || st.current = '_' then
      let (rest, st') := matchIden fuel (nextChar st)
      (String.mk (st.current :: rest.data), st')
    else ("", st)

/-- Rust `Lexer::match_num(base)`. -/
def matchNum (base : Nat) : Nat → LexState → String × LexState
  | 0, st => ("", st)
  | fuel + 1, st =>
    if rustIsDigit st.current base then
      let (rest, st') := matchNum base fuel (nextChar st)
      (String.mk (st.current :: rest.data), st')
    else ("", st)

/-- Rust `Lexer::match_scientific`. -/
def matchScientific (fuel : Nat) (st : LexState) : String × LexState :=
  let (num, st1) := matchNum 10 fuel st
  if st1.current = 'e' || st1.current = 'E' then
    let exp := st1.current
    let st2 := nextChar st1
    let (sign, st3) :=
      if st2.current = '+' || st2.current = '-' then
        (String.mk [st2.current], nextChar st2)
      else ("", st2)
    let (digits, st4) := matchNum 10 fuel st3
    (num ++ String.mk [exp] ++ sign ++ digits, st4)
  else (num, st1)

/-- Rust `Lexer::match_char`: two to four characters, including the quotes. -/
def matchChar (st : LexState) : String × LexState :=
  let ch1 := String.mk [st.current]
  let st1 := nextChar st
  let ch2 := ch1.push st1.current
  let st2 := nextChar st1
  let (ch3, st3) :=
    if ch2 = String.mk [squoteChar, bslashChar] && st2.current ≠ nulChar then
      (ch2.push st2.current, nextChar st2)
    else (ch2, st2)
  if st3.current = squoteChar then
    (ch3.push st3.current, nextChar st3)
  else (ch3, st3)

/-- The `while` loop of `Lexer::match_str`, with its `escape` flag. -/
def matchStrLoop : Nat → Bool → LexState → String × LexState
  | 0, _, st => ("", st)
  | fuel + 1, escape, st =>
    if (st.current ≠ '"' && st.current ≠ nulChar) || escape then
      let (rest, st') := matchStrLoop fuel (st.current = bslashChar) (nextChar st)
      (String.mk (st.current :: rest.data), st')
    else ("", st)

/-- Rust `Lexer::match_str`: the whole lexeme including quotes. -/
def matchStr (fuel : Nat) (st : LexState) : String × LexState :=
  let s0 := String.mk [st.current]
  let st1 := nextChar st
  let (body, st2) := matchStrLoop fuel false st1
  if st2.current = '"' then
    (s0 ++ body ++ String.mk [st2.current], nextChar st2)
  else (s0 ++ body, st2)

/-- Rust `Lexer::match_line_comment`. -/
def matchLineComment : Nat → LexState → String × LexState
  | 0, st => ("", st)
  | fuel + 1, st =>
    if st.current ≠ '\n' && st.current ≠ nulChar then
      let (rest, st') := matchLineComment fuel (nextChar st)
      (String.mk (st.current :: rest.data), st')
    else ("", st)

/-- The `while` loop of `Lexer::match_block_comment`, with its `asterisk`
flag. -/
def matchBlockCommentLoop : Nat → Bool → LexState → String × LexState
  | 0, _, st => ("", st)
  | fuel + 1, asterisk, st =>
    if st.current ≠ nulChar && !(asterisk && st.current = '/') then
      let (rest, st') := matchBlockCommentLoop fuel (st.current = '*') (nextChar st)
      (String.mk (st.current :: rest.data), st')
    else ("", st)

/-- Rust `Lexer::match_block_comment` (pushes the final slash when present). -/
def matchBlockComment (fuel : Nat) (st : LexState) : String × LexState :=
  let (body, st1) := matchBlockCommentLoop fuel false st
  if st1.current ≠ nulChar then
    (body.push st1.current, nextChar st1)
  else (body, st1)

/-- The keyword table of `Lexer::next` (identifier branch). -/
def keywordOrIden (tmp : String) : TokenType :=
  match tmp with
  | "for" => TokenType.KwFor
  | "to" => TokenType.KwTo
  | "while" => TokenType.KwWhile
  | "if" => TokenType.KwIf
  | "else" => TokenType.KwElse
  | "true" => TokenType.KwTrue
  | "false" => TokenType.KwFalse
  | "or" => TokenType.KwOr
  | "and" => TokenType.KwAnd
  | "not" => TokenType.KwNot
  | "let" => TokenType.KwLet
  | "fn" => TokenType.KwFn
  | "return" => TokenType.KwReturn
  | "int" => TokenType.KwInt
  | "char" => TokenType.KwChar
  | "bool" => TokenType.KwBool
  | "float" => TokenType.KwFloat
  | "str" => TokenType.KwStr
  | _ => TokenType.Iden tmp

/-- Does a token type match `TokenType::Invalid(_)`? -/
def TokenType.isInvalid : TokenType → Bool
  | TokenType.Invalid _ => true
  | _ => false

/-- Is a token type one of the two trivia kinds the parser skips
(`TokenType::LC(_) | TokenType::BC(_)`)? -/
def TokenType.isTrivia : TokenType → Bool
  | TokenType.LC _ => true
  | TokenType.BC _ => true
  | _ => false

/-- Rust `Lexer::next`: dispatch on the current character and build one token.
The triple in each branch is `(token type, state after the branch,
the Rust `consumed` flag)`; the final adjustment mirrors
`if !consumed && !matches!(tok, TokenType::Invalid(_)) { self.next_char() }`. -/
def lexNext (fuel : Nat) (st0 : LexState) : Token × LexState :=
  let st := consumeWhitespace fuel st0
  let line := st.line
  let column := st.column
  let (tok, st1, consumed) :=
    if st.current = '(' then (TokenType.LPar, st, false)
    else if st.current = ')' then (TokenType.RPar, st, false)
    else if st.current = '[' then (TokenType.LBracket, st, false)
    else if st.current = ']' then (TokenType.RBracket, st, false)
    else if st.current = Char.ofNat 0x7b then (TokenType.LBrace, st, false)
    else if st.current = Char.ofNat 0x7d then (TokenType.RBrace, st, false)
    else if st.current = '+' then (TokenType.Plus, st, false)
    else if st.current = '-' then (TokenType.Minus, st, false)
    else if st.current = '*' then (TokenType.Asterisk, st, false)
    else if st.current = '%' then (TokenType.Percent, st, false)
    else if st.current = '|' then (TokenType.Pipe, st, false)
    else if st.current = '&' then (TokenType.Amp, st, false)
    else if st.current = '~' then (TokenType.Tilde, st, false)
    else if st.current = ';' then (TokenType.Semicolon, st, false)
    else if st.current = ':' then (TokenType.Colon, st, false)
    else if st.current = ',' then (TokenType.Comma, st, false)
    else if st.current = nulChar then (TokenType.EOF, st, false)
    else if st.current = '<' then
      let st' := nextChar st
      if st'.current = '=' then (TokenType.LEq, st', false)
      else (TokenType.LT, st', true)
    else if st.current = '>' then
      let st' := nextChar st
      if st'.current = '=' then (TokenType.GEq, st', false)
      else (TokenType.GT, st', true)
    else if st.current = '!' then
      let st' := nextChar st
      if st'.current = '=' then (TokenType.NEq, st', false)
      else (TokenType.Invalid "!", st', true)
    else if st.current = '=' then
      let st' := nextChar st
      if st'.current = '=' then (TokenType.Eq, st', false)
      else (TokenType.Assign, st', true)
    else if st.current = '/' then
      let st' := nextChar st
      if st'.current = '/' then
        let st'' := nextChar st'
        let (c, st3) := matchLineComment fuel st''
        (TokenType.LC ("//" ++ c), st3, true)
      else if st'.current = '*' then
        let st'' := nextChar st'
        let (c, st3) := matchBlockComment fuel st''
        (TokenType.BC ("/*" ++ c), st3, true)
      else (TokenType.Slash, st', true)
    else if st.current = squoteChar then
      let (c, st') := matchChar st
      if c.data.getLast? = some squoteChar then (TokenType.LiteralChar c, st', true)
      else (TokenType.Invalid c, st', true)
    else if st.current = '"' then
      let (s, st') := matchStr fuel st
      if s.data.getLast? = some '"' then (TokenType.LiteralStr s, st', true)
      else (TokenType.Invalid s, st', true)
    else if st.current = '.' then
      let st' := nextChar st
      if rustIsDigit st'.current 10 then
        let (f, st'') := matchScientific fuel st'
        (TokenType.LiteralFloat ("." ++ f), st'', true)
      else (TokenType.Period, st', true)
    else if isAsciiAlphabetic st.current || st.current = '_' then
      let (tmp, st') := matchIden fuel st
      (keywordOrIden tmp, st', true)
    else if rustIsDigit st.current 10 then
      let (tmp, st') := matchNum 10 fuel st
      if tmp = "0" then
        if st'.current = 'b' || st'.current = 'B' then
          let pre := tmp.push st'.current
          let (digits, st'') := matchNum 2 fuel (nextChar st')
          (TokenType.LiteralIntBin (pre ++ digits), st'', true)
        else if st'.current = 'o' || st'.current = 'O' then
          let pre := tmp.push st'.current
          let (digits, st'') := matchNum 8 fuel (nextChar st')
          (TokenType.LiteralIntOct (pre ++ digits), st'', true)
        else if st'.current = 'x' || st'.current = 'X' then
          let pre := tmp.push st'.current
          let (digits, st'') := matchNum 16 fuel (nextChar st')
          (TokenType.LiteralIntHex (pre ++ digits), st'', true)
        else if st'.current = '.' then
          -- NOTE: unlike the non-"0" branch below, the source pushes the
          -- '.' but does not call `next_char` before `match_scientific`.
          let pre := tmp.push st'.current
          let (sci, st'') := matchScientific fuel st'
          (TokenType.LiteralFloat (pre ++ sci), st'', true)
        else if st'.current = 'e' then
          let (sci, st'') := matchScientific fuel st'
          (TokenType.LiteralFloat (tmp ++ sci), st'', true)
        else (TokenType.LiteralIntDec tmp, st', true)
      else
        if st'.current = '.' then
          let pre := tmp.push st'.current
          let (sci, st'') := matchScientific fuel (nextChar st')
          (TokenType.LiteralFloat (pre ++ sci), st'', true)
        else if st'.current = 'e' then
          let (sci, st'') := matchScientific fuel st'
          (TokenType.LiteralFloat (tmp ++ sci), st'', true)
        else (TokenType.LiteralIntDec tmp, st', true)
    else (TokenType.Invalid "", st, true)
  let st2 := if !consumed && !tok.isInvalid then nextChar st1 else st1
  ({ line := line, column := column, token_type := tok }, st2)

/-- Run `Lexer::next` repeatedly until an `EOF` token, which is kept as the
final element (fuel-bounded). -/
def tokenizeAux : Nat → LexState → List Token
  | 0, _ => []
  | fuel + 1, st =>
    let (t, st') := lexNext (st.stream.length + 2) st
    match t.token_type with
    | TokenType.EOF => [t]
    | _ => t :: tokenizeAux fuel st'

/-- Tokenize a whole source string. -/
def tokenize (s : String) : List Token :=
  tokenizeAux (s.length + 2) (initLex s)

/-! ## AST model (`parser/src/ast.rs`)

`Ty` embeds `ast::Type` (renamed: `Type` is reserved in Lean).
`Expr.LiteralFloat` keeps the literal's text: the Rust node stores the
`f64` produced by `str::parse`, which a shallow embedding does not model;
no claim concerns float values, only whether the parse succeeds
(`rustF64SyntaxOk` below). -/

inductive Ty where
  | Int (line column : Nat)
  | Float (line column : Nat)
  | Char (line column : Nat)
  | Str (line column : Nat)
  | Bool (line column : Nat)
  | Array (element_type : Ty) (line column : Nat)
  | Error (line column : Nat)
deriving DecidableEq, Repr

inductive BinOp where
  | Add (line column : Nat)
  | Sub (line column : Nat)
  | Mul (line column : Nat)
  | Div (line column : Nat)
  | Mod (line column : Nat)
  | LogAnd (line column : Nat)
  | LogOr (line column : Nat)
  | BitAnd (line column : Nat)
  | BitOr (line column : Nat)
  | Eq (line column : Nat)
  | NEq (line column : Nat)
  | LT (line column : Nat)
  | GT (line column : Nat)
  | LEq (line column : Nat)
  | GEq (line column : Nat)
deriving DecidableEq, Repr

inductive UnOp where
  | Neg (line column : Nat)
  | LogNot (line column : Nat)
  | BitNot (line column : Nat)
deriving DecidableEq, Repr

inductive Expr where
  | LiteralInt (value : Int) (line column : Nat)
  | LiteralStr (value : String) (line column : Nat)
  | LiteralChar (value : Char) (line column : Nat)
  | LiteralFloat (value : String) (line column : Nat)
  | LiteralBool (value : Bool) (line column : Nat)
  | LiteralArray (elements : List Expr) (line column : Nat)
  | BinaryOp (l : Expr) (op : BinOp) (r : Expr)
  | UnaryOp (op : UnOp) (expr : Expr)
  | Identifier (id : String) (line column : Nat)
  | Call (id : String) (args : List Expr) (line column : Nat)
  | ArrayExpr (id : String) (index : Expr) (line column : Nat)
  | Assign (id : String) (expr : Expr) (line column : Nat)
  | Error (line column : Nat)
deriving Repr

inductive Stmt where
  | Let (id : String) (var_type : Ty) (expr : Option Expr) (line column : Nat)
  | Expr (expr : Expr)
  | If (cond : Expr) (then_stmt : Stmt) (else_stmt : Option Stmt) (line column : Nat)
  | While (cond : Expr) (body : Stmt) (line column : Nat)
  | For (id : String) (start : Expr) (stop : Expr) (body : Stmt) (line column : Nat)
  | Return (expr : Expr) (line column : Nat)
  | Block (stmts : List Stmt) (line column : Nat)
  | FnDef (id : String) (params : List (String × Ty)) (return_type : Option Ty)
      (body : Stmt) (line column : Nat)
  | Empty (line column : Nat)
deriving Repr

/-! ## Literal resolution helpers (`parser/src/syntax.rs`, `primary_expr`) -/

/-- Is `pat` a prefix of `s`? (used to model Rust `str::replace`). -/
def startsWithList : List Char → List Char → Bool
  | [], _ => true
  | _ :: _, [] => false
  | p :: ps, c :: cs => p = c && startsWithList ps cs

/-- Rust `str::replace` on character lists: replace every non-overlapping
occurrence of `pat`, scanning left to right (fuelled; each step consumes
at least one character, so `s.length + 1` fuel always completes). -/
def replaceAll : Nat → List Char → List Char → List Char → List Char
  | 0, _, _, s => s
  | fuel + 1, pat, rep, s =>
    match s with
    | [] => []
    | c :: cs =>
      if pat ≠ [] ∧ startsWithList pat (c :: cs) then
        rep ++ replaceAll fuel pat rep (List.drop pat.length (c :: cs))
      else
        c :: replaceAll fuel pat rep cs

/-- Rust `str::trim_matches` with a character pattern: strip every leading
and trailing occurrence. -/
def trimMatchesChar (c : Char) (s : List Char) : List Char :=
  ((s.dropWhile (· = c)).reverse.dropWhile (· = c)).reverse

/-- String-literal resolution from `primary_expr`'s `LiteralStr` arm:
`trim_matches('"')` followed by the seven `replace` calls in source
order. -/
def resolveStrLit (s : String) : String :=
  let raw := trimMatchesChar '"' s.data
  let r1 := replaceAll (raw.length + 1) [bslashChar, 'n'] ['\n'] raw
  let r2 := replaceAll (r1.length + 1) [bslashChar, '"'] ['"'] r1
  let r3 := replaceAll (r2.length + 1) [bslashChar, 't'] ['\t'] r2
  let r4 := replaceAll (r3.length + 1) [bslashChar, bslashChar] [bslashChar] r3
  let r5 := replaceAll (r4.length + 1) [bslashChar, 'r'] ['\r'] r4
  let r6 := replaceAll (r5.length + 1) [bslashChar, squoteChar] [squoteChar] r5
  let r7 := replaceAll (r6.length + 1) [bslashChar, '0'] [nulChar] r6
  String.mk r7

/-- Char-literal resolution from `primary_expr`'s `LiteralChar` arm:
`trim_matches('\'')`, then a 1-character body stands for itself and a
longer body must be one of the seven escapes. -/
def resolveCharLit (c : String) : Option Char :=
  let trimmed := trimMatchesChar squoteChar c.data
  match trimmed with
  | [x] => some x
  | _ =>
    if trimmed = [bslashChar, 'n'] then some '\n'
    else if trimmed = [bslashChar, squoteChar] then some squoteChar
    else if trimmed = [bslashChar, '"'] then some '"'
    else if trimmed = [bslashChar, 't'] then some '\t'
    else if trimmed = [bslashChar, bslashChar] then some bslashChar
    else if trimmed = [bslashChar, 'r'] then some '\r'
    else if trimmed = [bslashChar, '0'] then some nulChar
    else none

/-- The `i64` range. -/
def i64Max : Int := 9223372036854775807

def i64Min : Int := -9223372036854775808

/-- Digit-sequence value in a radix, `none` on any invalid digit. -/
def digitsValue (radix : Nat) : List Char → Nat → Option Nat
  | [], acc => some acc
  | c :: cs, acc =>
    match rustToDigit c radix with
    | some d => digitsValue radix cs (acc * radix + d)
    | none => none

/-- Rust `i64::from_str_radix`: optional sign, at least one digit, each
digit valid for the radix, result within the `i64` range. -/
def fromStrRadix (s : String) (radix : Nat) : Option Int :=
  match s.data with
  | [] => none
  | c :: rest =>
    let (sign, digits) : Int × List Char :=
      if c = '+' then (1, rest)
      else if c = '-' then (-1, rest)
      else (1, c :: rest)
    match digits with
    | [] => none
    | _ =>
      match digitsValue radix digits 0 with
      | none => none
      | some v =>
        let value : Int := sign * (v : Int)
        if value ≤ i64Max ∧ i64Min ≤ value then some value else none

/-- Rust `f64::from_str` success on the numeric grammar (the lexer never
produces `inf`/`nan` spellings, which are ignored here): optional sign,
then `digits [. digits?] | . digits`, then an optional exponent
`e|E sign? digits`. -/
def rustF64SyntaxOk (s : String) : Bool :=
  let isDigit10 (c : Char) : Bool := rustIsDigit c 10
  let afterSign :=
    match s.data with
    | c :: rest => if c = '+' || c = '-' then rest else s.data
    | [] => []
  let mantissa := afterSign.takeWhile (fun c => isDigit10 c || c = '.')
  let rest := afterSign.drop mantissa.length
  let intPart := mantissa.takeWhile isDigit10
  let fracOk :=
    match mantissa.drop intPart.length with
    | [] => !intPart.isEmpty
    | '.' :: frac => (!intPart.isEmpty || !frac.isEmpty) && frac.all isDigit10
    | _ => false
  let expOk :=
    match rest with
    | [] => true
    | e :: er =>
      if e = 'e' || e = 'E' then
        let er' := match er with
          | c :: t => if c = '+' || c = '-' then t else er
          | [] => []
        !er'.isEmpty && er'.all isDigit10
      else false
  fracOk && expOk

/-! ## Token rendering (`lexer/src/token.rs`, the `Display` impls)

Diagnostics interpolate tokens via `Display`.  `token.rs` renders the
`Invalid` kind as the fixed word `invalid` (its text is not echoed), and
comments as the fixed word `comment`. -/

/-- Rust `Display for TokenType`. -/
def tokenTypeDisplay : TokenType → String
  | TokenType.Iden id => id
  | TokenType.LiteralIntDec n => n
  | TokenType.LiteralIntBin n => n
  | TokenType.LiteralIntOct n => n
  | TokenType.LiteralIntHex n => n
  | TokenType.LiteralChar c => c
  | TokenType.LiteralFloat num => num
  | TokenType.LiteralStr s => s
  | TokenType.LPar => "("
  | TokenType.RPar => ")"
  | TokenType.LBracket => "["
  | TokenType.RBracket => "]"
  | TokenType.LBrace => "\x7b"
  | TokenType.RBrace => "\x7d"
  | TokenType.LT => "<"
  | TokenType.GT => ">"
  | TokenType.LEq => "<="
  | TokenType.GEq => ">="
  | TokenType.Eq => "=="
  | TokenType.NEq => "!="
  | TokenType.Assign => "="
  | TokenType.Plus => "+"
  | TokenType.Minus => "-"
  | TokenType.Asterisk => "*"
  | TokenType.Slash => "/"
  | TokenType.Percent => "%"
  | TokenType.Pipe => "|"
  | TokenType.Amp => "&"
  | TokenType.Tilde => "~"
  | TokenType.Semicolon => ";"
  | TokenType.Colon => ":"
  | TokenType.Comma => ","
  | TokenType.Period => "."
  | TokenType.LC _ => "comment"
  | TokenType.BC _ => "comment"
  | TokenType.KwFor => "for"
  | TokenType.KwTo => "to"
  | TokenType.KwWhile => "while"
  | TokenType.KwIf => "if"
  | TokenType.KwElse => "else"
  | TokenType.KwTrue => "true"
  | TokenType.KwFalse => "false"
  | TokenType.KwOr => "or"
  | TokenType.KwAnd => "and"
  | TokenType.KwNot => "not"
  | TokenType.KwLet => "let"
  | TokenType.KwFn => "fn"
  | TokenType.KwReturn => "return"
  | TokenType.KwInt => "int"
  | TokenType.KwChar => "char"
  | TokenType.KwBool => "bool"
  | TokenType.KwFloat => "float"
  | TokenType.KwStr => "str"
  | TokenType.Invalid _ => "invalid"
  | TokenType.EOF => "EOF"

/-- Rust `Display for Token`: the type, then `, Ln: {line}, Col: {column}`. -/
def tokenDisplay (t : Token) : String :=
  tokenTypeDisplay t.token_type ++ ", Ln: " ++ toString t.line ++
    ", Col: " ++ toString t.column

/-! ## Parser state and lookahead (`parser/src/lib.rs`) -/

/-- Fatal parser outcomes.  `syn line column msg` models the
`panic!("{}:{}: Syntax error: {}", line, column, msg)` of
`Parser::syntax_error`; `noFuel` is this embedding's fuel-exhaustion
marker and is never reached in the theorems below. -/
inductive PErr where
  | syn (line column : Nat) (msg : String)
  | noFuel
deriving DecidableEq, Repr

/-- The `Parser` struct's mutable state: the lookahead token and the
tokens still to come from the lexer. -/
structure PState where
  current : Token
  toks : List Token
deriving Repr

/-- One pull from the token source (`self.lexer.next()`).  The real lexer
re-issues `EOF` tokens forever once exhausted, so the empty-list case
re-issues an `EOF`; every theorem below supplies the `EOF` token the lexer
actually produces, so this case is never load-bearing. -/
def pullToken : List Token → Token × List Token
  | [] => (Token.new 0 0 TokenType.EOF, [])
  | t :: ts => (t, ts)

/-- Rust `Parser::syntax_error` at the current token. -/
def synErr (st : PState) (msg : String) : PErr :=
  PErr.syn st.current.line st.current.column msg

/-- Rust `Parser::next`: advance the lookahead, transparently skipping line and
block comments, and aborting on an `Invalid` token with the message
`Invalid token `{current}``. -/
def pNext : Nat → List Token → Except PErr PState
  | 0, _ => .error PErr.noFuel
  | fuel + 1, toks =>
    let (t, ts) := pullToken toks
    match t.token_type with
    | TokenType.LC _ => pNext fuel ts
    | TokenType.BC _ => pNext fuel ts
    | TokenType.Invalid _ =>
      .error (PErr.syn t.line t.column ("Invalid token `" ++ tokenDisplay t ++ "`"))
    | _ => .ok ⟨t, ts⟩

/-- Rust `Parser::expect(expected)` (`parser/src/syntax.rs`). -/
def pExpect (fuel : Nat) (expected : TokenType) (st : PState) :
    Except PErr PState :=
  if st.current.token_type == expected then pNext fuel st.toks
  else .error (synErr st ("Expected `" ++ tokenTypeDisplay expected ++ "`"))

/-! ## Non-recursive grammar productions (`parser/src/syntax.rs`) -/

/-- Rust `Parser::types`. -/
def pTypes (fuel : Nat) (st : PState) : Except PErr (Ty × PState) := do
  let line := st.current.line
  let column := st.current.column
  let t ←
    match st.current.token_type with
    | TokenType.KwInt => pure (Ty.Int line column)
    | TokenType.KwFloat => pure (Ty.Float line column)
    | TokenType.KwChar => pure (Ty.Char line column)
    | TokenType.KwStr => pure (Ty.Str line column)
    | TokenType.KwBool => pure (Ty.Bool line column)
    | _ => Except.error (synErr st "Expected type")
  let st ← pNext fuel st.toks
  if st.current.token_type == TokenType.LBracket then
    let st ← pNext fuel st.toks
    let t := Ty.Array t line column
    let st ← pExpect fuel TokenType.RBracket st
    pure (t, st)
  else
    pure (t, st)

/-- Rust `Parser::typed_ident`. -/
def pTypedIdent (fuel : Nat) (st : PState) :
    Except PErr ((String × Ty) × PState) := do
  let id ←
    match st.current.token_type with
    | TokenType.Iden id => pure id
    | _ => Except.error (synErr st "Expected identifier")
  let st ← pNext fuel st.toks
  let st ← pExpect fuel TokenType.Colon st
  let (t, st) ← pTypes fuel st
  pure ((id, t), st)

/-- Rust `Parser::param_list` (right recursion on `,`, stopping before `)`). -/
def pParamList : Nat → PState → Except PErr (List (String × Ty) × PState)
  | 0, _ => .error PErr.noFuel
  | fuel + 1, st => do
    if st.current.token_type == TokenType.RPar then
      pure ([], st)
    else
      let (idt, st) ← pTypedIdent fuel st
      if st.current.token_type == TokenType.Comma then
        let st ← pNext fuel st.toks
        let (cdr, st) ← pParamList fuel st
        pure (idt :: cdr, st)
      else
        pure ([idt], st)

/-! ## The mutually recursive grammar (`parser/src/syntax.rs`)

One Lean function per Rust method; each `while` loop becomes a `*Loop`
function carrying the fold accumulator, exactly as the loop body does. -/

mutual

/-- Rust `Parser::prog`. -/
def pProg : Nat → PState → Except PErr (List Stmt × PState)
  | 0, _ => .error PErr.noFuel
  | fuel + 1, st =>
    match st.current.token_type with
    | TokenType.KwFn => do
      let (f, st) ← pFunc fuel st
      let (crd, st) ← pProg fuel st
      pure (f :: crd, st)
    | TokenType.EOF => pure ([], st)
    | _ => Except.error (synErr st "Expected `fn`")

/-- Rust `Parser::func`. -/
def pFunc : Nat → PState → Except PErr (Stmt × PState)
  | 0, _ => .error PErr.noFuel
  | fuel + 1, st => do
    let st ← pExpect fuel TokenType.KwFn st
    let line := st.current.line
    let column := st.current.column
    let id ←
      match st.current.token_type with
      | TokenType.Iden id => pure id
      | _ => Except.error (synErr st "Expected identifier")
    let st ← pNext fuel st.toks
    let st ← pExpect fuel TokenType.LPar st
    let (params, st) ← pParamList fuel st
    let st ← pExpect fuel TokenType.RPar st
    let (rt, st) ←
      match st.current.token_type with
      | TokenType.Colon => do
        let st ← pNext fuel st.toks
        let (t, st) ← pTypes fuel st
        pure (some t, st)
      | _ => pure ((none : Option Ty), st)
    let (body, st) ← pStmt fuel st
    pure (Stmt.FnDef id params rt body line column, st)

/-- Rust `Parser::stmt`. -/
def pStmt : Nat → PState → Except PErr (Stmt × PState)
  | 0, _ => .error PErr.noFuel
  | fuel + 1, st =>
    match st.current.token_type with
    | TokenType.KwLet => pLetStmt fuel st
    | TokenType.KwIf => pIfStmt fuel st
    | TokenType.KwWhile => pWhileStmt fuel st
    | TokenType.KwFor => pForStmt fuel st
    | TokenType.KwReturn => pReturnStmt fuel st
    | TokenType.LBrace => pBlockStmt fuel st
    | TokenType.Semicolon => do
      let st ← pNext fuel st.toks
      pure (Stmt.Empty st.current.line st.current.column, st)
    | _ => pExprStmt fuel st

/-- Rust `Parser::let_stmt`. -/
def pLetStmt : Nat → PState → Except PErr (Stmt × PState)
  | 0, _ => .error PErr.noFuel
  | fuel + 1, st => do
    let st ← pExpect fuel TokenType.KwLet st
    let line := st.current.line
    let column := st.current.column
    let ((id, var_type), st) ← pTypedIdent fuel st
    let (e, st) ←
      match st.current.token_type with
      | TokenType.Assign => do
        let st ← pNext fuel st.toks
        let (e, st) ← pExpr fuel st
        pure (some e, st)
      | _ => pure ((none : Option Expr), st)
    let st ← pExpect fuel TokenType.Semicolon st
    pure (Stmt.Let id var_type e line column, st)

/-- Rust `Parser::expr_stmt`. -/
def pExprStmt : Nat → PState → Except PErr (Stmt × PState)
  | 0, _ => .error PErr.noFuel
  | fuel + 1, st => do
    let (e, st) ← pExpr fuel st
    let st ← pExpect fuel TokenType.Semicolon st
    pure (Stmt.Expr e, st)

/-- Rust `Parser::if_stmt`. -/
def pIfStmt : Nat → PState → Except PErr (Stmt × PState)
  | 0, _ => .error PErr.noFuel
  | fuel + 1, st => do
    let st ← pExpect fuel TokenType.KwIf st
    let line := st.current.line
    let column := st.current.column
    let (cond, st) ← pExpr fuel st
    let (thenS, st) ← pStmt fuel st
    let (elseS, st) ←
      match st.current.token_type with
      | TokenType.KwElse => do
        let st ← pNext fuel st.toks
        let (s, st) ← pStmt fuel st
        pure (some s, st)
      | _ => pure ((none : Option Stmt), st)
    pure (Stmt.If cond thenS elseS line column, st)

/-- Rust `Parser::while_stmt`. -/
def pWhileStmt : Nat → PState → Except PErr (Stmt × PState)
  | 0, _ => .error PErr.noFuel
  | fuel + 1, st => do
    let st ← pExpect fuel TokenType.KwWhile st
    let line := st.current.line
    let column := st.current.column
    let (cond, st) ← pExpr fuel st
    let (body, st) ← pStmt fuel st
    pure (Stmt.While cond body line column, st)

/-- Rust `Parser::for_stmt`. -/
def pForStmt : Nat → PState → Except PErr (Stmt × PState)
  | 0, _ => .error PErr.noFuel
  | fuel + 1, st => do
    let st ← pExpect fuel TokenType.KwFor st
    let line := st.current.line
    let column := st.current.column
    let id ←
      match st.current.token_type with
      | TokenType.Iden id => pure id
      | _ => Except.error (synErr st "Expected identifier")
    let st ← pNext fuel st.toks
    let st ← pExpect fuel TokenType.Assign st
    let (start, st) ← pExpr fuel st
    let st ← pExpect fuel TokenType.KwTo st
    let (stop, st) ← pExpr fuel st
    let (body, st) ← pStmt fuel st
    pure (Stmt.For id start stop body line column, st)

/-- Rust `Parser::return_stmt`. -/
def pReturnStmt : Nat → PState → Except PErr (Stmt × PState)
  | 0, _ => .error PErr.noFuel
  | fuel + 1, st => do
    let st ← pExpect fuel TokenType.KwReturn st
    let line := st.current.line
    let column := st.current.column
    let (e, st) ← pExpr fuel st
    let st ← pExpect fuel TokenType.Semicolon st
    pure (Stmt.Return e line column, st)

/-- Rust `Parser::block_stmt`. -/
def pBlockStmt : Nat → PState → Except PErr (Stmt × PState)
  | 0, _ => .error PErr.noFuel
  | fuel + 1, st => do
    let st ← pExpect fuel TokenType.LBrace st
    let line := st.current.line
    let column := st.current.column
    let (stmts, st) ← pMultiStmt fuel st
    let st ← pExpect fuel TokenType.RBrace st
    pure (Stmt.Block stmts line column, st)

/-- Rust `Parser::multi_stmt`. -/
def pMultiStmt : Nat → PState → Except PErr (List Stmt × PState)
  | 0, _ => .error PErr.noFuel
  | fuel + 1, st => do
    if st.current.token_type == TokenType.RBrace then
      pure ([], st)
    else
      let (s, st) ← pStmt fuel st
      let (cdr, st) ← pMultiStmt fuel st
      pure (s :: cdr, st)

/-- Rust `Parser::expr`. -/
def pExpr : Nat → PState → Except PErr (Expr × PState)
  | 0, _ => .error PErr.noFuel
  | fuel + 1, st => pLogOrExpr fuel st

/-- Rust `Parser::log_or_expr`. -/
def pLogOrExpr : Nat → PState → Except PErr (Expr × PState)
  | 0, _ => .error PErr.noFuel
  | fuel + 1, st => do
    let (l, st) ← pLogAndExpr fuel st
    pLogOrLoop fuel l st

/-- The `while` loop of `log_or_expr`. -/
def pLogOrLoop : Nat → Expr → PState → Except PErr (Expr × PState)
  | 0, _, _ => .error PErr.noFuel
  | fuel + 1, l, st =>
    if st.current.token_type == TokenType.KwOr then do
      let op := BinOp.LogOr st.current.line st.current.column
      let st ← pNext fuel st.toks
      let (r, st) ← pLogAndExpr fuel st
      pLogOrLoop fuel (Expr.BinaryOp l op r) st
    else pure (l, st)

/-- Rust `Parser::log_and_expr`. -/
def pLogAndExpr : Nat → PState → Except PErr (Expr × PState)
  | 0, _ => .error PErr.noFuel
  | fuel + 1, st => do
    let (l, st) ← pEqNeqExpr fuel st
    pLogAndLoop fuel l st

/-- The `while` loop of `log_and_expr`. -/
def pLogAndLoop : Nat → Expr → PState → Except PErr (Expr × PState)
  | 0, _, _ => .error PErr.noFuel
  | fuel + 1, l, st =>
    if st.current.token_type == TokenType.KwAnd then do
      let op := BinOp.LogAnd st.current.line st.current.column
      let st ← pNext fuel st.toks
      let (r, st) ← pEqNeqExpr fuel st
      pLogAndLoop fuel (Expr.BinaryOp l op r) st
    else pure (l, st)

/-- Rust `Parser::eq_neq_expr`. -/
def pEqNeqExpr : Nat → PState → Except PErr (Expr × PState)
  | 0, _ => .error PErr.noFuel
  | fuel + 1, st => do
    let (l, st) ← pCompExpr fuel st
    pEqNeqLoop fuel l st

/-- The `loop` of `eq_neq_expr` (`_ => break` modelled by `none`). -/
def pEqNeqLoop : Nat → Expr → PState → Except PErr (Expr × PState)
  | 0, _, _ => .error PErr.noFuel
  | fuel + 1, l, st =>
    let line := st.current.line
    let column := st.current.column
    let op? : Option BinOp :=
      match st.current.token_type with
      | TokenType.Eq => some (BinOp.Eq line column)
      | TokenType.NEq => some (BinOp.NEq line column)
      | _ => none
    match op? with
    | some op => do
      let st ← pNext fuel st.toks
      let (r, st) ← pCompExpr fuel st
      pEqNeqLoop fuel (Expr.BinaryOp l op r) st
    | none => pure (l, st)

/-- Rust `Parser::comp_expr`. -/
def pCompExpr : Nat → PState → Except PErr (Expr × PState)
  | 0, _ => .error PErr.noFuel
  | fuel + 1, st => do
    let (l, st) ← pBitOr fuel st
    pCompLoop fuel l st

/-- The `loop` of `comp_expr`. -/
def pCompLoop : Nat → Expr → PState → Except PErr (Expr × PState)
  | 0, _, _ => .error PErr.noFuel
  | fuel + 1, l, st =>
    let line := st.current.line
    let column := st.current.column
    let op? : Option BinOp :=
      match st.current.token_type with
      | TokenType.LT => some (BinOp.LT line column)
      | TokenType.GT => some (BinOp.GT line column)
      | TokenType.LEq => some (BinOp.LEq line column)
      | TokenType.GEq => some (BinOp.GEq line column)
      | _ => none
    match op? with
    | some op => do
      let st ← pNext fuel st.toks
      let (r, st) ← pBitOr fuel st
      pCompLoop fuel (Expr.BinaryOp l op r) st
    | none => pure (l, st)

/-- Rust `Parser::bit_or`. -/
def pBitOr : Nat → PState → Except PErr (Expr × PState)
  | 0, _ => .error PErr.noFuel
  | fuel + 1, st => do
    let (l, st) ← pBitAndExpr fuel st
    pBitOrLoop fuel l st

/-- The `while` loop of `bit_or`. -/
def pBitOrLoop : Nat → Expr → PState → Except PErr (Expr × PState)
  | 0, _, _ => .error PErr.noFuel
  | fuel + 1, l, st =>
    if st.current.token_type == TokenType.Pipe then do
      let op := BinOp.BitOr st.current.line st.current.column
      let st ← pNext fuel st.toks
      let (r, st) ← pBitAndExpr fuel st
      pBitOrLoop fuel (Expr.BinaryOp l op r) st
    else pure (l, st)

/-- Rust `Parser::bit_and_expr`. -/
def pBitAndExpr : Nat → PState → Except PErr (Expr × PState)
  | 0, _ => .error PErr.noFuel
  | fuel + 1, st => do
    let (l, st) ← pAddSubExpr fuel st
    pBitAndLoop fuel l st

/-- The `while` loop of `bit_and_expr`. -/
def pBitAndLoop : Nat → Expr → PState → Except PErr (Expr × PState)
  | 0, _, _ => .error PErr.noFuel
  | fuel + 1, l, st =>
    if st.current.token_type == TokenType.Amp then do
      let op := BinOp.BitAnd st.current.line st.current.column
      let st ← pNext fuel st.toks
      let (r, st) ← pAddSubExpr fuel st
      pBitAndLoop fuel (Expr.BinaryOp l op r) st
    else pure (l, st)

/-- Rust `Parser::add_sub_expr`. -/
def pAddSubExpr : Nat → PState → Except PErr (Expr × PState)
  | 0, _ => .error PErr.noFuel
  | fuel + 1, st => do
    let (l, st) ← pMulDivModExpr fuel st
    pAddSubLoop fuel l st

/-- The `loop` of `add_sub_expr`. -/
def pAddSubLoop : Nat → Expr → PState → Except PErr (Expr × PState)
  | 0, _, _ => .error PErr.noFuel
  | fuel + 1, l, st =>
    let line := st.current.line
    let column := st.current.column
    let op? : Option BinOp :=
      match st.current.token_type with
      | TokenType.Plus => some (BinOp.Add line column)
      | TokenType.Minus => some (BinOp.Sub line column)
      | _ => none
    match op? with
    | some op => do
      let st ← pNext fuel st.toks
      let (r, st) ← pMulDivModExpr fuel st
      pAddSubLoop fuel (Expr.BinaryOp l op r) st
    | none => pure (l, st)

/-- Rust `Parser::mul_div_mod_expr`. -/
def pMulDivModExpr : Nat → PState → Except PErr (Expr × PState)
  | 0, _ => .error PErr.noFuel
  | fuel + 1, st => do
    let (l, st) ← pUnaryExpr fuel st
    pMulDivModLoop fuel l st

/-- The `loop` of `mul_div_mod_expr`. -/
def pMulDivModLoop : Nat → Expr → PState → Except PErr (Expr × PState)
  | 0, _, _ => .error PErr.noFuel
  | fuel + 1, l, st =>
    let line := st.current.line
    let column := st.current.column
    let op? : Option BinOp :=
      match st.current.token_type with
      | TokenType.Asterisk => some (BinOp.Mul line column)
      | TokenType.Slash => some (BinOp.Div line column)
      | TokenType.Percent => some (BinOp.Mod line column)
      | _ => none
    match op? with
    | some op => do
      let st ← pNext fuel st.toks
      let (r, st) ← pUnaryExpr fuel st
      pMulDivModLoop fuel (Expr.BinaryOp l op r) st
    | none => pure (l, st)

/-- Rust `Parser::unary_expr` (the operand is a primary expression, not a full
expression). -/
def pUnaryExpr : Nat → PState → Except PErr (Expr × PState)
  | 0, _ => .error PErr.noFuel
  | fuel + 1, st =>
    let line := st.current.line
    let column := st.current.column
    match st.current.token_type with
    | TokenType.Plus => do
      let st ← pNext fuel st.toks
      pPrimaryExpr fuel st
    | TokenType.Minus => do
      let op := UnOp.Neg line column
      let st ← pNext fuel st.toks
      let (e, st) ← pPrimaryExpr fuel st
      pure (Expr.UnaryOp op e, st)
    | TokenType.KwNot => do
      let op := UnOp.LogNot line column
      let st ← pNext fuel st.toks
      let (e, st) ← pPrimaryExpr fuel st
      pure (Expr.UnaryOp op e, st)
    | TokenType.Tilde => do
      let op := UnOp.BitNot line column
      let st ← pNext fuel st.toks
      let (e, st) ← pPrimaryExpr fuel st
      pure (Expr.UnaryOp op e, st)
    | _ => pPrimaryExpr fuel st

/-- Rust `Parser::primary_expr`. -/
def pPrimaryExpr : Nat → PState → Except PErr (Expr × PState)
  | 0, _ => .error PErr.noFuel
  | fuel + 1, st =>
    let line := st.current.line
    let column := st.current.column
    match st.current.token_type with
    | TokenType.LiteralStr s => do
      let value := resolveStrLit s
      let st ← pNext fuel st.toks
      pure (Expr.LiteralStr value line column, st)
    | TokenType.LiteralChar c => do
      let parsed := resolveCharLit c
      let st ← pNext fuel st.toks
      match parsed with
      | some value => pure (Expr.LiteralChar value line column, st)
      | none => Except.error (synErr st "Invalid character")
    | TokenType.LiteralFloat f => do
      if rustF64SyntaxOk f then
        let st ← pNext fuel st.toks
        pure (Expr.LiteralFloat f line column, st)
      else
        Except.error (synErr st "Invalid float")
    | TokenType.LiteralIntDec n => do
      match fromStrRadix n 10 with
      | some value =>
        let st ← pNext fuel st.toks
        pure (Expr.LiteralInt value line column, st)
      | none => Except.error (synErr st "Invalid integer")
    | TokenType.LiteralIntHex n => do
      match fromStrRadix (String.mk (n.data.drop 2)) 16 with
      | some value =>
        let st ← pNext fuel st.toks
        pure (Expr.LiteralInt value line column, st)
      | none => Except.error (synErr st "Invalid integer")
    | TokenType.LiteralIntBin n => do
      match fromStrRadix (String.mk (n.data.drop 2)) 2 with
      | some value =>
        let st ← pNext fuel st.toks
        pure (Expr.LiteralInt value line column, st)
      | none => Except.error (synErr st "Invalid integer")
    | TokenType.LiteralIntOct n => do
      match fromStrRadix (String.mk (n.data.drop 2)) 8 with
      | some value =>
        let st ← pNext fuel st.toks
        pure (Expr.LiteralInt value line column, st)
      | none => Except.error (synErr st "Invalid integer")
    | TokenType.KwTrue => do
      let st ← pNext fuel st.toks
      pure (Expr.LiteralBool true line column, st)
    | TokenType.KwFalse => do
      let st ← pNext fuel st.toks
      pure (Expr.LiteralBool false line column, st)
    | TokenType.LBracket => do
      let st ← pNext fuel st.toks
      let (elements, st) ← pCommaList fuel st
      let st ← pExpect fuel TokenType.RBracket st
      pure (Expr.LiteralArray elements line column, st)
    | TokenType.LPar => do
      let st ← pNext fuel st.toks
      let (e, st) ← pExpr fuel st
      let st ← pExpect fuel TokenType.RPar st
      pure (e, st)
    | TokenType.Iden id => do
      let st ← pNext fuel st.toks
      match st.current.token_type with
      | TokenType.Assign => do
        let st ← pNext fuel st.toks
        let (e, st) ← pExpr fuel st
        pure (Expr.Assign id e line column, st)
      | TokenType.LPar => do
        let st ← pNext fuel st.toks
        let (args, st) ← pCommaList fuel st
        let st ← pExpect fuel TokenType.RPar st
        pure (Expr.Call id args line column, st)
      | TokenType.LBracket => do
        let st ← pNext fuel st.toks
        let (index, st) ← pExpr fuel st
        let st ← pExpect fuel TokenType.RBracket st
        pure (Expr.ArrayExpr id index line column, st)
      | _ => pure (Expr.Identifier id line column, st)
    | _ => Except.error (synErr st "Expected expression")

/-- Rust `Parser::comma_list` (right recursion on `,`, stopping before `)`, `]`
or `}`). -/
def pCommaList : Nat → PState → Except PErr (List Expr × PState)
  | 0, _ => .error PErr.noFuel
  | fuel + 1, st => do
    if st.current.token_type == TokenType.RPar ||
        st.current.token_type == TokenType.RBracket ||
        st.current.token_type == TokenType.RBrace then
      pure ([], st)
    else
      let (e, st) ← pExpr fuel st
      if st.current.token_type == TokenType.Comma then
        let st ← pNext fuel st.toks
        let (cdr, st) ← pCommaList fuel st
        pure (e :: cdr, st)
      else
        pure ([e], st)

end

/-! ## Parse entry points

`Parser::parse` first calls `next()` to load the lookahead and then runs a
production.  The wrappers below do the same from a token list or from
source text, and project out the AST value. -/

/-- Fuel that dominates the recursion depth of any parse of `toks`. -/
def fuelFor (toks : List Token) : Nat := 20 * toks.length + 50

/-- Load the first lookahead and parse one expression. -/
def parseExprToks (toks : List Token) : Except PErr Expr := do
  let st ← pNext (fuelFor toks) toks
  let (e, _) ← pExpr (fuelFor toks) st
  pure e

/-- Tokenize a source string and parse one expression. -/
def parseExprStr (src : String) : Except PErr Expr :=
  parseExprToks (tokenize src)

/-- Load the first lookahead and parse one statement. -/
def parseStmtToks (toks : List Token) : Except PErr Stmt := do
  let st ← pNext (fuelFor toks) toks
  let (s, _) ← pStmt (fuelFor toks) st
  pure s

/-- Tokenize a source string and parse one function definition. -/
def parseFuncStr (src : String) : Except PErr Stmt := do
  let toks := tokenize src
  let st ← pNext (fuelFor toks) toks
  let (s, _) ← pFunc (fuelFor toks) st
  pure s

/-- Load the first lookahead and parse one function definition. -/
def parseFuncToks (toks : List Token) : Except PErr Stmt := do
  let st ← pNext (fuelFor toks) toks
  let (s, _) ← pFunc (fuelFor toks) st
  pure s

/-- Tokenize a source string and parse the parameter-list production
(entered, as in `func`, on the token after `(`). -/
def parseParamListStr (src : String) : Except PErr (List (String × Ty)) := do
  let toks := tokenize src
  let st ← pNext (fuelFor toks) toks
  let (ps, _) ← pParamList (fuelFor toks) st
  pure ps

/-- Rust `Parser::parse`: the whole program. -/
def parseProgStr (src : String) : Except PErr (List Stmt) := do
  let toks := tokenize src
  let st ← pNext (fuelFor toks) toks
  let (p, _) ← pProg (fuelFor toks) st
  pure p

/-! ## Symbol table (`semantic/src/symbol_table.rs`)

The two implementors of the `Symbol` trait become one inductive; the
`HashMap<String, Box<dyn Symbol>>` becomes an association list keyed by
identifier (`contains_key`, `get` and `insert` only inspect keys, so the
hash map's bucket order is immaterial).  `upper_scope :
Option<Box<SymbolTable>>` becomes the `root`/`nested` split. -/

/-- The `Symbol` trait with its two implementors `Function` and `Variable`
(renamed: `Symbol` exists in Mathlib). -/
inductive KSymbol where
  | func (identifier return_type : String) (parameters : List (String × String))
  | var (identifier var_type : String)
deriving DecidableEq, Repr

/-- Rust `KSymbol::identifier`. -/
def KSymbol.identifier : KSymbol → String
  | KSymbol.func id _ _ => id
  | KSymbol.var id _ => id

/-- Rust `KSymbol::symbol_type`. -/
def KSymbol.symbol_type : KSymbol → String
  | KSymbol.func _ rt _ => rt
  | KSymbol.var _ vt => vt

inductive SymbolTableError where
  | SymbolNotFound (s : String)
  | SymbolAlreadyExists (s : String)
deriving DecidableEq, Repr

/-- Rust `SymbolTable`: `root syms` is `upper_scope: None`, `nested up syms` is
`upper_scope: Some(up)`. -/
inductive SymbolTable where
  | root (symbols : List (String × KSymbol))
  | nested (upper_scope : SymbolTable) (symbols : List (String × KSymbol))
deriving DecidableEq, Repr

/-- The scope's own map. -/
def SymbolTable.symbols : SymbolTable → List (String × KSymbol)
  | SymbolTable.root syms => syms
  | SymbolTable.nested _ syms => syms

/-- Rust `HashMap::contains_key`. -/
def containsKey (m : List (String × KSymbol)) (k : String) : Bool :=
  m.any (fun p => p.1 = k)

/-- Rust `HashMap::get`. -/
def mapGet (m : List (String × KSymbol)) (k : String) : Option KSymbol :=
  (m.find? (fun p => p.1 = k)).map Prod.snd

/-- Rust `SymbolTable::exists`. -/
def SymbolTable.existsIn : SymbolTable → String → Bool
  | SymbolTable.root syms, id => containsKey syms id
  | SymbolTable.nested up syms, id =>
    containsKey syms id || up.existsIn id

/-- Rust `SymbolTable::get`: own map first, then the parent chain. -/
def SymbolTable.get : SymbolTable → String → Except SymbolTableError KSymbol
  | SymbolTable.root syms, id =>
    match mapGet syms id with
    | some s => .ok s
    | none => .error (SymbolTableError.SymbolNotFound id)
  | SymbolTable.nested up syms, id =>
    match mapGet syms id with
    | some s => .ok s
    | none => up.get id

/-- Rust `SymbolTable::add`: rejects a duplicate in the scope's own map,
otherwise inserts (mutation modelled by returning the new table). -/
def SymbolTable.add (t : SymbolTable) (symbol : KSymbol) :
    Except SymbolTableError SymbolTable :=
  let identifier := symbol.identifier
  if containsKey t.symbols identifier then
    .error (SymbolTableError.SymbolAlreadyExists identifier)
  else
    match t with
    | SymbolTable.root syms => .ok (SymbolTable.root ((identifier, symbol) :: syms))
    | SymbolTable.nested up syms =>
      .ok (SymbolTable.nested up ((identifier, symbol) :: syms))

/-- The scope chain, innermost first — the order in which the spec says
resolution walks the scopes. -/
def SymbolTable.chain : SymbolTable → List (List (String × KSymbol))
  | SymbolTable.root syms => [syms]
  | SymbolTable.nested up syms => syms :: up.chain

/-- Resolution as the spec words it: walk the chain and return the symbol
from the first scope that contains the name. -/
def specResolve (t : SymbolTable) (name : String) : Option KSymbol :=
  t.chain.findSome? (fun scope => mapGet scope name)

/-! ## Theorems: the claims -/

/-- Shorthand for building tokens in the statements below. -/
def tk : Nat → Nat → TokenType → Token := Token.new
/-- C1: the expression parser's layered precedence levels each fold left:
`a - b - c` parses as `(a - b) - c`, `a + b * c` as `a + (b * c)`,
`a | b & c` as `a | (b & c)`, and `a and b or c` as `(a and b) or c`. -/
theorem c1_precedence_left_assoc :
    parseExprStr "a - b - c" =
      .ok (Expr.BinaryOp
        (Expr.BinaryOp (Expr.Identifier "a" 1 1) (BinOp.Sub 1 3)
          (Expr.Identifier "b" 1 5))
        (BinOp.Sub 1 7) (Expr.Identifier "c" 1 9)) ∧
    parseExprStr "a + b * c" =
      .ok (Expr.BinaryOp (Expr.Identifier "a" 1 1) (BinOp.Add 1 3)
        (Expr.BinaryOp (Expr.Identifier "b" 1 5) (BinOp.Mul 1 7)
          (Expr.Identifier "c" 1 9))) ∧
    parseExprStr "a | b & c" =
      .ok (Expr.BinaryOp (Expr.Identifier "a" 1 1) (BinOp.BitOr 1 3)
        (Expr.BinaryOp (Expr.Identifier "b" 1 5) (BinOp.BitAnd 1 7)
          (Expr.Identifier "c" 1 9))) ∧
    parseExprStr "a and b or c" =
      .ok (Expr.BinaryOp
        (Expr.BinaryOp (Expr.Identifier "a" 1 1) (BinOp.LogAnd 1 3)
          (Expr.Identifier "b" 1 7))
        (BinOp.LogOr 1 9) (Expr.Identifier "c" 1 12)) := by
  have t1 : tokenize "a - b - c" =
      [tk 1 1 (.Iden "a"), tk 1 3 .Minus, tk 1 5 (.Iden "b"),
       tk 1 7 .Minus, tk 1 9 (.Iden "c"), tk 1 9 .EOF] := by rfl
  have t2 : tokenize "a + b * c" =
      [tk 1 1 (.Iden "a"), tk 1 3 .Plus, tk 1 5 (.Iden "b"),
       tk 1 7 .Asterisk, tk 1 9 (.Iden "c"), tk 1 9 .EOF] := by rfl
  have t3 : tokenize "a | b & c" =
      [tk 1 1 (.Iden "a"), tk 1 3 .Pipe, tk 1 5 (.Iden "b"),
       tk 1 7 .Amp, tk 1 9 (.Iden "c"), tk 1 9 .EOF] := by rfl
  have t4 : tokenize "a and b or c" =
      [tk 1 1 (.Iden "a"), tk 1 3 .KwAnd, tk 1 7 (.Iden "b"),
       tk 1 9 .KwOr, tk 1 12 (.Iden "c"), tk 1 12 .EOF] := by rfl
  refine ⟨?_, ?_, ?_, ?_⟩
  · show parseExprToks (tokenize "a - b - c") = _
    rw [t1]; rfl
  · show parseExprToks (tokenize "a + b * c") = _
    rw [t2]; rfl
  · show parseExprToks (tokenize "a | b & c") = _
    rw [t3]; rfl
  · show parseExprToks (tokenize "a and b or c") = _
    rw [t4]; rfl
/-- C3: the `"0"` branch of `Lexer::next` omits the `next_char` call that
the parallel non-`"0"` branch performs before `match_scientific`, so `0.5`
lexes as the two float tokens `0.` and `.5` instead of one `0.5`; and only
a lowercase `e` dispatches to the float path, so `12E3` lexes as the
integer `12` followed by the identifier `E3`.  A well-formed input such as
`3.1e1` does lex as a single float token. -/
theorem c3_zero_float_and_uppercase_exponent_bug :
    tokenize "0.5" =
      [tk 1 1 (.LiteralFloat "0."), tk 1 2 (.LiteralFloat ".5"),
       tk 1 3 .EOF] ∧
    tokenize "12E3" =
      [tk 1 1 (.LiteralIntDec "12"), tk 1 3 (.Iden "E3"), tk 1 4 .EOF] ∧
    tokenize "3.1e1" =
      [tk 1 1 (.LiteralFloat "3.1e1"), tk 1 5 .EOF] := by
  refine ⟨rfl, rfl, rfl⟩
/-- C6: each unary prefix operator parses exactly one primary operand:
`- a * b`, `not a * b` and `~ a * b` all bind the operator to `a` only,
and a unary `+` yields exactly the AST of its operand. -/
theorem c6_unary_binds_primary :
    parseExprStr "- a * b" =
      .ok (Expr.BinaryOp (Expr.UnaryOp (UnOp.Neg 1 1) (Expr.Identifier "a" 1 3))
        (BinOp.Mul 1 5) (Expr.Identifier "b" 1 7)) ∧
    parseExprStr "not a * b" =
      .ok (Expr.BinaryOp (Expr.UnaryOp (UnOp.LogNot 1 1) (Expr.Identifier "a" 1 5))
        (BinOp.Mul 1 7) (Expr.Identifier "b" 1 9)) ∧
    parseExprStr "~ a * b" =
      .ok (Expr.BinaryOp (Expr.UnaryOp (UnOp.BitNot 1 1) (Expr.Identifier "a" 1 3))
        (BinOp.Mul 1 5) (Expr.Identifier "b" 1 7)) ∧
    parseExprToks [tk 1 1 .Plus, tk 1 3 (.Iden "a"), tk 1 3 .EOF] =
      parseExprToks [tk 1 3 (.Iden "a"), tk 1 3 .EOF] ∧
    parseExprToks [tk 1 1 .Plus, tk 1 3 (.Iden "a"), tk 1 3 .EOF] =
      .ok (Expr.Identifier "a" 1 3) := by
  have t1 : tokenize "- a * b" =
      [tk 1 1 .Minus, tk 1 3 (.Iden "a"), tk 1 5 .Asterisk,
       tk 1 7 (.Iden "b"), tk 1 7 .EOF] := by rfl
  have t2 : tokenize "not a * b" =
      [tk 1 1 .KwNot, tk 1 5 (.Iden "a"), tk 1 7 .Asterisk,
       tk 1 9 (.Iden "b"), tk 1 9 .EOF] := by rfl
  have t3 : tokenize "~ a * b" =
      [tk 1 1 .Tilde, tk 1 3 (.Iden "a"), tk 1 5 .Asterisk,
       tk 1 7 (.Iden "b"), tk 1 7 .EOF] := by rfl
  have hplus : parseExprToks [tk 1 1 .Plus, tk 1 3 (.Iden "a"), tk 1 3 .EOF] =
      .ok (Expr.Identifier "a" 1 3) := rfl
  have hbare : parseExprToks [tk 1 3 (.Iden "a"), tk 1 3 .EOF] =
      .ok (Expr.Identifier "a" 1 3) := rfl
  refine ⟨?_, ?_, ?_, hplus.trans hbare.symm, hplus⟩
  · show parseExprToks (tokenize "- a * b") = _
    rw [t1]; rfl
  · show parseExprToks (tokenize "not a * b") = _
    rw [t2]; rfl
  · show parseExprToks (tokenize "~ a * b") = _
    rw [t3]; rfl
/-- C7 counterexample: the hex literal `0x1fA` resolves to 506
(= 1·256 + 15·16 + 10), not to the claimed 507. -/
theorem c7_counterexample_hex_value :
    parseExprStr "0x1fA" = .ok (Expr.LiteralInt 506 1 1) ∧
    parseExprStr "0x1fA" ≠ .ok (Expr.LiteralInt 507 1 1) := by
  have t1 : tokenize "0x1fA" =
      [tk 1 1 (.LiteralIntHex "0x1fA"), tk 1 5 .EOF] := by rfl
  have h506 : parseExprStr "0x1fA" = .ok (Expr.LiteralInt 506 1 1) := by
    show parseExprToks (tokenize "0x1fA") = _
    rw [t1]; rfl
  refine ⟨h506, ?_⟩
  intro h
  rw [h506] at h
  simp only [Except.ok.injEq, Expr.LiteralInt.injEq] at h
  exact absurd h.1 (by decide)
/-- C7 amended: radix literals strip their two-character prefix and parse
the rest in the corresponding radix; `0x1fA`, `0B1001`, `0o5`, `0O5` and
`0b1011` resolve to 506, 9, 5, 5 and 11 respectively. -/
theorem c7_radix_literal_values :
    parseExprStr "0x1fA" = .ok (Expr.LiteralInt 506 1 1) ∧
    parseExprStr "0B1001" = .ok (Expr.LiteralInt 9 1 1) ∧
    parseExprStr "0o5" = .ok (Expr.LiteralInt 5 1 1) ∧
    parseExprStr "0O5" = .ok (Expr.LiteralInt 5 1 1) ∧
    parseExprStr "0b1011" = .ok (Expr.LiteralInt 11 1 1) := by
  have t1 : tokenize "0x1fA" =
      [tk 1 1 (.LiteralIntHex "0x1fA"), tk 1 5 .EOF] := by rfl
  have t2 : tokenize "0B1001" =
      [tk 1 1 (.LiteralIntBin "0B1001"), tk 1 6 .EOF] := by rfl
  have t3 : tokenize "0o5" =
      [tk 1 1 (.LiteralIntOct "0o5"), tk 1 3 .EOF] := by rfl
  have t4 : tokenize "0O5" =
      [tk 1 1 (.LiteralIntOct "0O5"), tk 1 3 .EOF] := by rfl
  have t5 : tokenize "0b1011" =
      [tk 1 1 (.LiteralIntBin "0b1011"), tk 1 6 .EOF] := by rfl
  refine ⟨?_, ?_, ?_, ?_, ?_⟩
  · show parseExprToks (tokenize "0x1fA") = _
    rw [t1]; rfl
  · show parseExprToks (tokenize "0B1001") = _
    rw [t2]; rfl
  · show parseExprToks (tokenize "0o5") = _
    rw [t3]; rfl
  · show parseExprToks (tokenize "0O5") = _
    rw [t4]; rfl
  · show parseExprToks (tokenize "0b1011") = _
    rw [t5]; rfl
/-- C10: a trailing comma before the closing delimiter of an argument
list, array literal, or parameter list is accepted and yields the same
AST as without it: `f(a,)` is a one-argument call equal to `f(a)`'s AST,
`[1,]` a one-element array literal equal to `[1]`'s, the parameter list
`x:int,)` equals `x:int)`, and `fn f(x:int,) {}` is a function with
exactly one parameter. -/
theorem c10_trailing_comma :
    parseExprStr "f(a,)" = .ok (Expr.Call "f" [Expr.Identifier "a" 1 3] 1 1) ∧
    parseExprStr "f(a)" = .ok (Expr.Call "f" [Expr.Identifier "a" 1 3] 1 1) ∧
    parseExprStr "[1,]" = .ok (Expr.LiteralArray [Expr.LiteralInt 1 1 2] 1 1) ∧
    parseExprStr "[1]" = .ok (Expr.LiteralArray [Expr.LiteralInt 1 1 2] 1 1) ∧
    parseParamListStr "x:int,)" = .ok [("x", Ty.Int 1 3)] ∧
    parseParamListStr "x:int)" = .ok [("x", Ty.Int 1 3)] ∧
    parseFuncStr "fn f(x:int,)\x7b\x7d" =
      .ok (Stmt.FnDef "f" [("x", Ty.Int 1 8)] none (Stmt.Block [] 1 14) 1 4) := by
  have t1 : tokenize "f(a,)" =
      [tk 1 1 (.Iden "f"), tk 1 2 .LPar, tk 1 3 (.Iden "a"),
       tk 1 4 .Comma, tk 1 5 .RPar, tk 1 5 .EOF] := by rfl
  have t2 : tokenize "f(a)" =
      [tk 1 1 (.Iden "f"), tk 1 2 .LPar, tk 1 3 (.Iden "a"),
       tk 1 4 .RPar, tk 1 4 .EOF] := by rfl
  have t3 : tokenize "[1,]" =
      [tk 1 1 .LBracket, tk 1 2 (.LiteralIntDec "1"), tk 1 3 .Comma,
       tk 1 4 .RBracket, tk 1 4 .EOF] := by rfl
  have t4 : tokenize "[1]" =
      [tk 1 1 .LBracket, tk 1 2 (.LiteralIntDec "1"),
       tk 1 3 .RBracket, tk 1 3 .EOF] := by rfl
  have t5 : tokenize "x:int,)" =
      [tk 1 1 (.Iden "x"), tk 1 2 .Colon, tk 1 3 .KwInt,
       tk 1 6 .Comma, tk 1 7 .RPar, tk 1 7 .EOF] := by rfl
  have t6 : tokenize "x:int)" =
      [tk 1 1 (.Iden "x"), tk 1 2 .Colon, tk 1 3 .KwInt,
       tk 1 6 .RPar, tk 1 6 .EOF] := by rfl
  have t7 : tokenize "fn f(x:int,)\x7b\x7d" =
      [tk 1 1 .KwFn, tk 1 4 (.Iden "f"), tk 1 5 .LPar, tk 1 6 (.Iden "x"),
       tk 1 7 .Colon, tk 1 8 .KwInt, tk 1 11 .Comma, tk 1 12 .RPar,
       tk 1 13 .LBrace, tk 1 14 .RBrace, tk 1 14 .EOF] := by rfl
  refine ⟨?_, ?_, ?_, ?_, ?_, ?_, ?_⟩
  · show parseExprToks (tokenize "f(a,)") = _
    rw [t1]; rfl
  · show parseExprToks (tokenize "f(a)") = _
    rw [t2]; rfl
  · show parseExprToks (tokenize "[1,]") = _
    rw [t3]; rfl
  · show parseExprToks (tokenize "[1]") = _
    rw [t4]; rfl
  · show (do
        let toks := tokenize "x:int,)"
        let st ← pNext (fuelFor toks) toks
        let (ps, _) ← pParamList (fuelFor toks) st
        pure ps) = _
    rw [t5]; rfl
  · show (do
        let toks := tokenize "x:int)"
        let st ← pNext (fuelFor toks) toks
        let (ps, _) ← pParamList (fuelFor toks) st
        pure ps) = _
    rw [t6]; rfl
  · show (do
        let toks := tokenize "fn f(x:int,)\x7b\x7d"
        let st ← pNext (fuelFor toks) toks
        let (s, _) ← pFunc (fuelFor toks) st
        pure s) = _
    rw [t7]; rfl

/-- C2 counterexample: `Parser::let_stmt` reads `line`/`column` only
after `expect(KwLet)` has consumed the `let` keyword, so the `Let` node
is tagged with the identifier's position (1,5), not the keyword's
position (1,1). -/
theorem c2_counterexample_let_position :
    parseStmtToks [tk 1 1 .KwLet, tk 1 5 (.Iden "x"), tk 1 6 .Colon,
        tk 1 8 .KwInt, tk 1 11 .Semicolon, tk 1 12 .EOF] =
      .ok (Stmt.Let "x" (Ty.Int 1 8) none 1 5) ∧
    parseStmtToks [tk 1 1 .KwLet, tk 1 5 (.Iden "x"), tk 1 6 .Colon,
        tk 1 8 .KwInt, tk 1 11 .Semicolon, tk 1 12 .EOF] ≠
      .ok (Stmt.Let "x" (Ty.Int 1 8) none 1 1) := by
  have h : parseStmtToks [tk 1 1 .KwLet, tk 1 5 (.Iden "x"), tk 1 6 .Colon,
      tk 1 8 .KwInt, tk 1 11 .Semicolon, tk 1 12 .EOF] =
      .ok (Stmt.Let "x" (Ty.Int 1 8) none 1 5) := rfl
  refine ⟨h, ?_⟩
  intro hbad
  rw [h] at hbad
  simp at hbad

/-- C2 amended: keyword-led statements are tagged with the position of
the token *after* the leading terminal: a let statement with the
identifier following `let`, if/while/for/return statements with the
token following their keyword, an empty statement with the token
following the `;`, a block with the token following `\x7b`, and a
function definition with the identifier following `fn`. -/
theorem c2_statement_positions (l1 c1 l2 c2 l3 c3 l4 c4 l5 c5 l6 c6 l7 c7 l8 c8 : Nat) :
    parseStmtToks [tk l1 c1 .KwLet, tk l2 c2 (.Iden "x"), tk l3 c3 .Colon,
        tk l4 c4 .KwInt, tk l5 c5 .Semicolon, tk l6 c6 .EOF] =
      .ok (Stmt.Let "x" (Ty.Int l4 c4) none l2 c2) ∧
    parseStmtToks [tk l1 c1 .KwIf, tk l2 c2 .KwTrue, tk l3 c3 .Semicolon,
        tk l4 c4 .EOF] =
      .ok (Stmt.If (Expr.LiteralBool true l2 c2) (Stmt.Empty l4 c4) none l2 c2) ∧
    parseStmtToks [tk l1 c1 .KwWhile, tk l2 c2 .KwTrue, tk l3 c3 .Semicolon,
        tk l4 c4 .EOF] =
      .ok (Stmt.While (Expr.LiteralBool true l2 c2) (Stmt.Empty l4 c4) l2 c2) ∧
    parseStmtToks [tk l1 c1 .KwFor, tk l2 c2 (.Iden "i"), tk l3 c3 .Assign,
        tk l4 c4 (.LiteralIntDec "0"), tk l5 c5 .KwTo,
        tk l6 c6 (.LiteralIntDec "5"), tk l7 c7 .Semicolon, tk l8 c8 .EOF] =
      .ok (Stmt.For "i" (Expr.LiteralInt 0 l4 c4) (Expr.LiteralInt 5 l6 c6)
        (Stmt.Empty l8 c8) l2 c2) ∧
    parseStmtToks [tk l1 c1 .KwReturn, tk l2 c2 (.LiteralIntDec "1"),
        tk l3 c3 .Semicolon, tk l4 c4 .EOF] =
      .ok (Stmt.Return (Expr.LiteralInt 1 l2 c2) l2 c2) ∧
    parseStmtToks [tk l1 c1 .Semicolon, tk l2 c2 .EOF] =
      .ok (Stmt.Empty l2 c2) ∧
    parseStmtToks [tk l1 c1 .LBrace, tk l2 c2 .RBrace, tk l3 c3 .EOF] =
      .ok (Stmt.Block [] l2 c2) ∧
    parseFuncToks [tk l1 c1 .KwFn, tk l2 c2 (.Iden "f"), tk l3 c3 .LPar,
        tk l4 c4 .RPar, tk l5 c5 .Semicolon, tk l6 c6 .EOF] =
      .ok (Stmt.FnDef "f" [] none (Stmt.Empty l6 c6) l2 c2) :=
  ⟨rfl, rfl, rfl, rfl, rfl, rfl, rfl, rfl⟩

/-- C4 counterexample: an escape sequence outside the fixed set is not a
fatal error in a string literal — the lexeme `"a\qb"` (which the lexer
produces from that source text) resolves successfully, keeping `\q`
verbatim. -/
theorem c4_counterexample_unknown_escape_no_error :
    tokenize "\"a\\qb\"" =
      [tk 1 1 (.LiteralStr "\"a\\qb\""), tk 1 6 .EOF] ∧
    parseExprToks [tk 1 1 (.LiteralStr "\"a\\qb\""), tk 1 6 .EOF] =
      .ok (Expr.LiteralStr "a\\qb" 1 1) := by
  exact ⟨rfl, rfl⟩

/-- C4 amended: string literals strip all surrounding `"` and apply the
seven replacements sequentially (`\n \" \t \\ \r \x27 \0`), so `"a\nb"`
resolves to the three characters a, newline, b; an unknown escape such
as `\q` is kept verbatim with no error.  Char literals strip surrounding
quotes; a one-character body stands for itself, a two-character body
must be one of the seven escapes (`'\0'` resolves to NUL), and any other
body — unknown escape like `'\q'` or a multi-character body — is a fatal
`Invalid character` error, raised after the token is consumed at the
position of the following token. -/
theorem c4_escape_resolution :
    resolveStrLit "\"a\\nb\"" = "a\nb" ∧
    parseExprToks [tk 1 1 (.LiteralStr "\"a\\nb\""), tk 1 7 .EOF] =
      .ok (Expr.LiteralStr "a\nb" 1 1) ∧
    resolveStrLit "\"a\\qb\"" = "a\\qb" ∧
    resolveCharLit "'\\0'" = some nulChar ∧
    parseExprToks [tk 1 1 (.LiteralChar "'\\0'"), tk 1 5 .EOF] =
      .ok (Expr.LiteralChar nulChar 1 1) ∧
    tokenize "'\\q'" = [tk 1 1 (.LiteralChar "'\\q'"), tk 1 4 .EOF] ∧
    resolveCharLit "'\\q'" = none ∧
    parseExprToks [tk 1 1 (.LiteralChar "'\\q'"), tk 1 4 .EOF] =
      .error (PErr.syn 1 4 "Invalid character") ∧
    resolveCharLit "'ab'" = none ∧
    parseExprToks [tk 1 1 (.LiteralChar "'ab'"), tk 1 5 .EOF] =
      .error (PErr.syn 1 5 "Invalid character") := by
  refine ⟨by decide, rfl, by decide, by decide, rfl, rfl, by decide, rfl,
    by decide, rfl⟩

/-- C5 counterexample: on the unrecognized character `@`, `Lexer::next`
returns an `Invalid` token whose payload is the *empty* string (the
offending text `@` is not captured), and the character is not consumed:
the lexer state is unchanged, so the lexeme covered by the token is
empty, not maximal. -/
theorem c5_counterexample_invalid_empty_payload :
    lexNext 10 (initLex "@") =
      (tk 1 1 (.Invalid ""), { line := 1, column := 1, current := '@', stream := [] }) ∧
    "" ≠ "@" := by
  exact ⟨rfl, by decide⟩

/-- C5 amended: an unrecognized character yields `Invalid` with an empty
payload and is not consumed, so the very same `Invalid` token is
re-issued by the next call; the malformed two-character operator `!`
does carry its text `!` in the payload. -/
theorem c5_invalid_token_payloads :
    lexNext 10 (initLex "@") =
      (tk 1 1 (.Invalid ""), { line := 1, column := 1, current := '@', stream := [] }) ∧
    lexNext 10 { line := 1, column := 1, current := '@', stream := [] } =
      (tk 1 1 (.Invalid ""), { line := 1, column := 1, current := '@', stream := [] }) ∧
    lexNext 10 (initLex "!") =
      (tk 1 1 (.Invalid "!"), { line := 1, column := 1, current := nulChar, stream := [] }) := by
  exact ⟨rfl, rfl, rfl⟩

/-- C8 counterexample: on an `Invalid` token the advance raises a fatal
error at the token's line/column, but the message renders the token type
as the fixed word `invalid` — the offending lexeme `!` does not appear
anywhere in the message. -/
theorem c8_counterexample_lexeme_not_named :
    pNext 10 [tk 3 7 (.Invalid "!"), tk 3 8 .EOF] =
      .error (PErr.syn 3 7 "Invalid token `invalid, Ln: 3, Col: 7`") ∧
    ("Invalid token `invalid, Ln: 3, Col: 7`".data.contains '!') = false := by
  exact ⟨rfl, by decide⟩

/-- C8 amended: the parser's advance skips every line- and block-comment
token (so no grammar production ever observes one: any token it
delivers is non-trivia), and an `Invalid` token raises a fatal error
carrying that token's line/column and a message that interpolates the
token through its `Display`, which renders the `Invalid` kind as the
fixed word `invalid` rather than the offending lexeme. -/
theorem c8_trivia_skipped_invalid_fatal :
    (∀ fuel l c s ts,
      pNext (fuel + 1) (Token.new l c (TokenType.LC s) :: ts) = pNext fuel ts) ∧
    (∀ fuel l c s ts,
      pNext (fuel + 1) (Token.new l c (TokenType.BC s) :: ts) = pNext fuel ts) ∧
    (∀ fuel toks st, pNext fuel toks = .ok st →
      st.current.token_type.isTrivia = false) ∧
    (∀ fuel l c s ts,
      pNext (fuel + 1) (Token.new l c (TokenType.Invalid s) :: ts) =
        .error (PErr.syn l c
          ("Invalid token `" ++ tokenDisplay (Token.new l c (TokenType.Invalid s)) ++ "`"))) ∧
    (∀ s, tokenTypeDisplay (TokenType.Invalid s) = "invalid") := by
  refine ⟨fun fuel l c s ts => rfl, fun fuel l c s ts => rfl, ?_,
    fun fuel l c s ts => rfl, fun s => rfl⟩
  intro fuel
  induction fuel with
  | zero =>
    intro toks st h
    exact Except.noConfusion h
  | succ n ih =>
    intro toks st h
    cases toks with
    | nil =>
      injection h with h2
      subst h2
      rfl
    | cons t ts =>
      obtain ⟨l, c, tt⟩ := t
      cases tt <;> first
        | exact ih ts st h
        | exact Except.noConfusion h
        | (injection h with h2; subst h2; rfl)

/-- C8 witness for the trivia conjunct: a comment token ahead of `fn` is
skipped, and the delivered token is not trivia. -/
theorem c8_trivia_skipped_invalid_fatal_witness :
    pNext 10 [tk 1 1 (.LC "// note"), tk 2 1 .KwFn, tk 2 3 .EOF] =
      .ok ⟨tk 2 1 .KwFn, [tk 2 3 .EOF]⟩ ∧
    (tk 2 1 TokenType.KwFn).token_type.isTrivia = false := by
  refine ⟨rfl, ?_⟩
  exact c8_trivia_skipped_invalid_fatal.2.2.1 10
    [tk 1 1 (.LC "// note"), tk 2 1 .KwFn, tk 2 3 .EOF]
    ⟨tk 2 1 .KwFn, [tk 2 3 .EOF]⟩ rfl

/-- C9: `SymbolTable::get` walks the current scope and then each
enclosing scope in order and returns the symbol from the first scope
containing the name (`specResolve` is that walk stated as the spec words
it); it reports `SymbolNotFound` exactly when no scope in the chain
contains the name; and `SymbolTable::add` reports `SymbolAlreadyExists`
when the identifier is already declared in the scope the declaration
targets. -/
theorem c9_symbol_table_resolution (t : SymbolTable) (name : String) (sym : KSymbol) :
    (t.get name = match specResolve t name with
      | some s => .ok s
      | none => .error (SymbolTableError.SymbolNotFound name)) ∧
    (specResolve t name = none ↔ ∀ scope ∈ t.chain, mapGet scope name = none) ∧
    (containsKey t.symbols sym.identifier = true →
      t.add sym = .error (SymbolTableError.SymbolAlreadyExists sym.identifier)) := by
  refine ⟨?_, ?_, ?_⟩
  · induction t with
    | root syms =>
      cases h : mapGet syms name <;>
        simp [SymbolTable.get, specResolve, SymbolTable.chain, List.findSome?, h]
    | nested up syms ih =>
      cases h : mapGet syms name <;>
        simp only [SymbolTable.get, specResolve, SymbolTable.chain,
          List.findSome?_cons, h] <;>
        simp [specResolve] at ih ⊢ <;>
        exact ih
  · simp [specResolve]
  · intro h
    simp [SymbolTable.add, h]

/-- C9 witness: in a nested scope (inner declares `y`, outer declares
`x`), `x` resolves from the parent scope, a missing name reports
`SymbolNotFound`, and re-declaring `y` in the inner scope reports
`SymbolAlreadyExists`. -/
theorem c9_symbol_table_resolution_witness :
    ((SymbolTable.nested (SymbolTable.root [("x", KSymbol.var "x" "int")])
        [("y", KSymbol.var "y" "str")]).add (KSymbol.var "y" "int") =
      .error (SymbolTableError.SymbolAlreadyExists "y")) ∧
    ((SymbolTable.nested (SymbolTable.root [("x", KSymbol.var "x" "int")])
        [("y", KSymbol.var "y" "str")]).get "x" = .ok (KSymbol.var "x" "int")) ∧
    ((SymbolTable.nested (SymbolTable.root [("x", KSymbol.var "x" "int")])
        [("y", KSymbol.var "y" "str")]).get "z" =
      .error (SymbolTableError.SymbolNotFound "z")) := by
  refine ⟨?_, rfl, rfl⟩
  exact (c9_symbol_table_resolution
    (SymbolTable.nested (SymbolTable.root [("x", KSymbol.var "x" "int")])
      [("y", KSymbol.var "y" "str")])
    "x" (KSymbol.var "y" "int")).2.2 (by decide)
